import Mathlib

/-!
# Health-check registry of swarmkit (`manager/health/health.go`)

A shallow embedding of the `health` package: the `Server` struct (a mutex and a
status map), its constructor `NewHealthServer`, and its two methods `Check` and
`SetServingStatus`. Each Go statement of a method is one step of the Lean
function that embeds it; a call either returns (with the receiver's state after
the call), panics, or blocks on the mutex.
-/

/-! ## Collaborating packages (only what `health.go` uses of them) -/

namespace api

/-- Modelled from the spec: the enumeration `HealthCheckResponse_ServingStatus` belongs to
package `api`, which is outside the embedded file. It is a 32-bit integer type in Go, so every
integer (not only a named member) is a value of it; no arithmetic is done on it. -/
abbrev HealthCheckResponse_ServingStatus := Int

/-- Modelled from the spec: member `UNKNOWN` of the enumeration (declared in package `api`). -/
def HealthCheckResponse_UNKNOWN : HealthCheckResponse_ServingStatus := 0

/-- Modelled from the spec: member `SERVING` of the enumeration (declared in package `api`). -/
def HealthCheckResponse_SERVING : HealthCheckResponse_ServingStatus := 1

/-- Modelled from the spec: member `NOT_SERVING` of the enumeration (declared in package `api`). -/
def HealthCheckResponse_NOT_SERVING : HealthCheckResponse_ServingStatus := 2

/-- The request message: `health.go` reads only its `Service` field. -/
structure HealthCheckRequest where
  Service : String
deriving DecidableEq, Repr

/-- The response message: `health.go` sets only its `Status` field. -/
structure HealthCheckResponse where
  Status : HealthCheckResponse_ServingStatus
deriving DecidableEq, Repr

end api

namespace codes

/-- The gRPC status codes of package `codes`; `health.go` uses `NotFound` only. -/
inductive Code where
  | OK
  | Canceled
  | Unknown
  | InvalidArgument
  | DeadlineExceeded
  | NotFound
  | AlreadyExists
  | PermissionDenied
  | ResourceExhausted
  | FailedPrecondition
  | Aborted
  | OutOfRange
  | Unimplemented
  | Internal
  | Unavailable
  | DataLoss
  | Unauthenticated
deriving DecidableEq, Repr

/-- The constant `codes.NotFound`. -/
def NotFound : Code := Code.NotFound

end codes

namespace status

/-- The error value built by `status.Errorf`: a code and a message. -/
structure Error where
  code : codes.Code
  message : String
deriving DecidableEq, Repr

/-- The call `status.Errorf(c, format)` without further arguments: the message is the format
string itself. -/
def Errorf (c : codes.Code) (format : String) : Error :=
  ⟨c, format⟩

end status

namespace context

/-- The three conditions a `context.Context` can be in when it is handed to a call. -/
inductive Context where
  | live
  | cancelled
  | expired
deriving DecidableEq, Repr

end context

namespace sync

/-- A `sync.Mutex`, seen by a single caller: held or free. -/
structure Mutex where
  locked : Bool
deriving DecidableEq, Repr

/-- The call `mu.Lock()`: takes a free mutex; on a held mutex the caller waits (`none`). -/
def Mutex.Lock (mu : Mutex) : Option Mutex :=
  if mu.locked then none else some ⟨true⟩

/-- The call `mu.Unlock()`: frees a held mutex; on a free mutex it is a fatal error (`none`). -/
def Mutex.Unlock (mu : Mutex) : Option Mutex :=
  if mu.locked then some ⟨false⟩ else none

end sync

/-! ## Package `health` -/

namespace health

/-- A Go `map[string]api.HealthCheckResponse_ServingStatus`: the nil map, or an allocated map
given by its entry at every key (`none` where the key is absent). -/
inductive GoMap where
  | nil
  | alloc (entries : String → Option api.HealthCheckResponse_ServingStatus)

/-- The expression `make(map[string]...)`: an allocated map without entries. -/
def GoMap.make : GoMap :=
  .alloc (fun _ => none)

/-- Whether the map is the nil map. -/
def GoMap.isNil : GoMap → Bool
  | .nil => true
  | .alloc _ => false

/-- The comma-ok read `v, ok := m[k]`: `some v` when `ok`, and `none` otherwise; reading the nil
map finds nothing. -/
def GoMap.index : GoMap → String → Option api.HealthCheckResponse_ServingStatus
  | .nil, _ => none
  | .alloc entries, k => entries k

/-- The statement `m[k] = v`: inserts or overwrites the entry at `k`; on the nil map it panics
(`none`). -/
def GoMap.assign : GoMap → String → api.HealthCheckResponse_ServingStatus → Option GoMap
  | .nil, _, _ => none
  | .alloc entries, k, v => some (.alloc (fun key => if key = k then some v else entries key))

/-- The struct `Server`: the mutex `mu` and the map `statusMap`. -/
structure Server where
  mu : sync.Mutex
  statusMap : GoMap

/-- How a method call ends: it returns (the receiver's state after the call, and the returned
value), it panics (the receiver's state at the panic), or it waits for the mutex forever. -/
inductive Exec (α : Type) where
  | returned (s : Server) (val : α)
  | panicked (s : Server)
  | blocked

/-- The pair `(*api.HealthCheckResponse, error)` returned by `Check`; `none` is Go's `nil`. -/
structure CheckResult where
  resp : Option api.HealthCheckResponse
  err : Option status.Error
deriving DecidableEq, Repr

/-- The function `NewHealthServer`: a free mutex (the zero value) and a freshly made map. -/
def NewHealthServer : Server :=
  { mu := ⟨false⟩, statusMap := GoMap.make }

/-- The method `Server.Check`, on a receiver and a request that are not nil. It locks the mutex,
decides the result (the empty name first, then the lookup), and the deferred `Unlock` runs
before it returns. The context argument is not read. -/
def Server.Check (s : Server) (ctx : context.Context) (in_ : api.HealthCheckRequest) :
    Exec CheckResult :=
  let _ := ctx
  match s.mu.Lock with
  | none => .blocked
  | some held =>
    let s1 : Server := { mu := held, statusMap := s.statusMap }
    let result : CheckResult :=
      if in_.Service = "" then
        { resp := some { Status := api.HealthCheckResponse_SERVING }, err := none }
      else
        match s1.statusMap.index in_.Service with
        | some st => { resp := some { Status := st }, err := none }
        | none => { resp := none, err := some (status.Errorf codes.NotFound "unknown service") }
    match s1.mu.Unlock with
    | none => .panicked s1
    | some free => .returned { mu := free, statusMap := s1.statusMap } result

/-- The method `Server.SetServingStatus`, on a receiver that is not nil. It locks the mutex,
assigns the map entry, and unlocks; the `Unlock` is not deferred, so a panic of the assignment
leaves the mutex held. -/
def Server.SetServingStatus (s : Server) (service : String)
    (status : api.HealthCheckResponse_ServingStatus) : Exec Unit :=
  match s.mu.Lock with
  | none => .blocked
  | some held =>
    let s1 : Server := { mu := held, statusMap := s.statusMap }
    match s1.statusMap.assign service status with
    | none => .panicked s1
    | some m =>
      let s2 : Server := { mu := s1.mu, statusMap := m }
      match s2.mu.Unlock with
      | none => .panicked s2
      | some free => .returned { mu := free, statusMap := s2.statusMap } ()

/-- One call on the registry by a client. -/
inductive Call where
  | check (ctx : context.Context) (in_ : api.HealthCheckRequest)
  | setServingStatus (service : String) (status : api.HealthCheckResponse_ServingStatus)

/-- The state after one call that returned; `none` when the call panicked or blocked. -/
def Call.exec (s : Server) : Call → Option Server
  | .check ctx in_ =>
    match s.Check ctx in_ with
    | .returned s1 _ => some s1
    | _ => none
  | .setServingStatus service status =>
    match s.SetServingStatus service status with
    | .returned s1 _ => some s1
    | _ => none

/-- The state after a sequence of calls made one after the other, each one returning before the
next starts; `none` when one of them did not return. -/
def run (s : Server) : List Call → Option Server
  | [] => some s
  | c :: cs =>
    match c.exec s with
    | some s1 => run s1 cs
    | none => none

/-- A sequence of `SetServingStatus` calls, given by their arguments. -/
def setCalls (args : List (String × api.HealthCheckResponse_ServingStatus)) : List Call :=
  args.map (fun a => Call.setServingStatus a.1 a.2)

/-- Whether the map has an entry at the key. -/
def GoMap.hasKey (m : GoMap) (k : String) : Bool :=
  (m.index k).isSome

/-- A successful `Check` result carrying the given status. -/
def okResult (st : api.HealthCheckResponse_ServingStatus) : CheckResult :=
  { resp := some { Status := st }, err := none }

/-- The failed `Check` result: no response and the not-found error. -/
def notFoundResult : CheckResult :=
  { resp := none, err := some { code := codes.NotFound, message := "unknown service" } }

/-- Whether the call is a `SetServingStatus` call whose service argument is `k`. -/
def Call.names (c : Call) (k : String) : Bool :=
  match c with
  | .check _ _ => false
  | .setServingStatus service _ => decide (service = k)

/-- The status written by the last call of the sequence that is a `SetServingStatus` call with
service argument `k`; `none` when the sequence has no such call. -/
def lastSet : List Call → String → Option api.HealthCheckResponse_ServingStatus
  | [], _ => none
  | c :: cs, k =>
    match lastSet cs k with
    | some v => some v
    | none =>
      match c with
      | .check _ _ => none
      | .setServingStatus service v => if service = k then some v else none

/-- The reference model, first half: the status given by the last call that names `name` in a
sequence of `SetServingStatus` calls (listed by their arguments, oldest first); `none` when no
call of the sequence names it. -/
def traceLastStatus (args : List (String × api.HealthCheckResponse_ServingStatus))
    (name : String) : Option api.HealthCheckResponse_ServingStatus :=
  (args.reverse.find? (fun a => decide (a.1 = name))).map (fun a => a.2)

/-- The reference model, second half: what a query of `name` answers after the sequence of
`SetServingStatus` calls: `SERVING` for the empty name, the last status written for a name that
some call named, and the not-found error otherwise. -/
def traceCheck (args : List (String × api.HealthCheckResponse_ServingStatus))
    (name : String) : CheckResult :=
  if name = "" then
    { resp := some { Status := api.HealthCheckResponse_SERVING }, err := none }
  else
    match traceLastStatus args name with
    | some v => { resp := some { Status := v }, err := none }
    | none => { resp := none, err := some { code := codes.NotFound, message := "unknown service" } }

end health

/-! ## Basic facts about the two methods -/

namespace health

theorem check_eq_of_free (s : Server) (ctx : context.Context) (in_ : api.HealthCheckRequest)
    (hmu : s.mu.locked = false) :
    s.Check ctx in_ = .returned s
      (if in_.Service = "" then okResult api.HealthCheckResponse_SERVING
       else match s.statusMap.index in_.Service with
         | some st => okResult st
         | none => notFoundResult) := by
  obtain ⟨⟨l⟩, m⟩ := s
  simp only at hmu
  subst hmu
  simp [Server.Check, sync.Mutex.Lock, sync.Mutex.Unlock, okResult, notFoundResult, status.Errorf]

theorem set_eq_of_ready (s : Server) (service : String)
    (status : api.HealthCheckResponse_ServingStatus)
    (hmu : s.mu.locked = false) (hmap : s.statusMap.isNil = false) :
    s.SetServingStatus service status = .returned
      { mu := ⟨false⟩,
        statusMap := .alloc (fun key => if key = service then some status
                                        else s.statusMap.index key) } () := by
  obtain ⟨⟨l⟩, m⟩ := s
  simp only at hmu
  subst hmu
  cases m with
  | nil => simp [GoMap.isNil] at hmap
  | alloc entries =>
    simp [Server.SetServingStatus, sync.Mutex.Lock, sync.Mutex.Unlock, GoMap.assign, GoMap.index]

theorem exec_of_ready (s : Server) (c : Call)
    (hmu : s.mu.locked = false) (hmap : s.statusMap.isNil = false) :
    ∃ s1, c.exec s = some s1 ∧ s1.mu.locked = false ∧ s1.statusMap.isNil = false ∧
      ∀ k, s1.statusMap.index k =
        (match lastSet [c] k with
         | some v => some v
         | none => s.statusMap.index k) := by
  cases c with
  | check ctx in_ =>
    refine ⟨s, ?_, hmu, hmap, ?_⟩
    · simp [Call.exec, check_eq_of_free s ctx in_ hmu]
    · intro k
      simp [lastSet]
  | setServingStatus service status =>
    refine ⟨{ mu := ⟨false⟩,
              statusMap := .alloc (fun key => if key = service then some status
                                              else s.statusMap.index key) }, ?_, rfl, rfl, ?_⟩
    · simp only [Call.exec, set_eq_of_ready s service status hmu hmap]
    · intro k
      by_cases h : service = k
      · subst h
        simp [lastSet, GoMap.index]
      · have h2 : ¬ k = service := fun e => h e.symm
        simp [lastSet, GoMap.index, h, h2]

theorem run_of_ready (calls : List Call) : ∀ (s : Server),
    s.mu.locked = false → s.statusMap.isNil = false →
    ∃ s1, run s calls = some s1 ∧ s1.mu.locked = false ∧ s1.statusMap.isNil = false ∧
      ∀ k, s1.statusMap.index k =
        (match lastSet calls k with
         | some v => some v
         | none => s.statusMap.index k) := by
  induction calls with
  | nil =>
    intro s hmu hmap
    exact ⟨s, rfl, hmu, hmap, fun k => by simp [lastSet]⟩
  | cons c cs ih =>
    intro s hmu hmap
    obtain ⟨s1, h1, hmu1, hmap1, hidx1⟩ := exec_of_ready s c hmu hmap
    obtain ⟨s2, h2, hmu2, hmap2, hidx2⟩ := ih s1 hmu1 hmap1
    refine ⟨s2, ?_, hmu2, hmap2, ?_⟩
    · simp [run, h1, h2]
    · intro k
      rw [hidx2 k, hidx1 k]
      cases hcs : lastSet cs k with
      | some v => simp [lastSet, hcs]
      | none =>
        cases c with
        | check ctx in_ => simp [lastSet, hcs]
        | setServingStatus service status =>
          by_cases h : service = k <;> simp [lastSet, hcs, h]

theorem lastSet_eq_none_iff (calls : List Call) (k : String) :
    lastSet calls k = none ↔ ∀ c ∈ calls, c.names k = false := by
  induction calls with
  | nil => simp [lastSet]
  | cons c cs ih =>
    cases hcs : lastSet cs k with
    | some v =>
      have : ¬ ∀ c ∈ cs, c.names k = false := fun h => by simp [ih.mpr h] at hcs
      simp only [lastSet, hcs, List.mem_cons, forall_eq_or_imp]
      constructor
      · intro h
        cases h
      · intro h
        exact absurd h.2 this
    | none =>
      have hall := ih.mp hcs
      simp only [lastSet, hcs, List.mem_cons, forall_eq_or_imp]
      cases c with
      | check ctx in_ => exact ⟨fun _ => ⟨rfl, hall⟩, fun _ => rfl⟩
      | setServingStatus service status =>
        by_cases h : service = k
        · simp [Call.names, h]
        · simp only [h, if_false, true_iff]
          exact ⟨by simp [Call.names, h], hall⟩

theorem ready_NewHealthServer :
    NewHealthServer.mu.locked = false ∧ NewHealthServer.statusMap.isNil = false ∧
      ∀ k, NewHealthServer.statusMap.index k = none :=
  ⟨rfl, rfl, fun _ => rfl⟩

theorem names_setCalls (args : List (String × api.HealthCheckResponse_ServingStatus))
    (k : String) :
    (∀ c ∈ setCalls args, c.names k = false) ↔ ∀ a ∈ args, a.1 ≠ k := by
  constructor
  · intro h a ha
    have := h (Call.setServingStatus a.1 a.2) (List.mem_map.mpr ⟨a, ha, rfl⟩)
    simpa [Call.names] using this
  · intro h c hc
    obtain ⟨a, ha, rfl⟩ := List.mem_map.mp hc
    simpa [Call.names] using h a ha

theorem free_of_check_returned (s s1 : Server) (ctx : context.Context)
    (in_ : api.HealthCheckRequest) (r : CheckResult)
    (h : s.Check ctx in_ = .returned s1 r) : s.mu.locked = false := by
  cases hl : s.mu.locked with
  | false => rfl
  | true => simp [Server.Check, sync.Mutex.Lock, hl] at h

theorem set_nil_map_panics (service : String) (v : api.HealthCheckResponse_ServingStatus) :
    (Server.mk ⟨false⟩ GoMap.nil).SetServingStatus service v
      = .panicked (Server.mk ⟨true⟩ GoMap.nil) := by
  simp [Server.SetServingStatus, sync.Mutex.Lock, GoMap.assign]

theorem lastSet_setCalls (args : List (String × api.HealthCheckResponse_ServingStatus))
    (name : String) :
    lastSet (setCalls args) name = traceLastStatus args name := by
  induction args with
  | nil => rfl
  | cons a rest ih =>
    have hrest : lastSet (setCalls rest) name = traceLastStatus rest name := ih
    simp only [traceLastStatus] at hrest
    simp only [setCalls, List.map_cons, lastSet, traceLastStatus, List.reverse_cons,
      List.find?_append]
    simp only [setCalls] at hrest
    rw [hrest]
    cases hf : List.find? (fun a => decide (a.1 = name)) rest.reverse with
    | some b => simp
    | none =>
      by_cases hname : a.1 = name <;> simp [hname, List.find?_cons]

theorem traceLastStatus_eq_none_iff
    (args : List (String × api.HealthCheckResponse_ServingStatus)) (name : String) :
    traceLastStatus args name = none ↔ ∀ a ∈ args, a.1 ≠ name := by
  rw [← lastSet_setCalls, lastSet_eq_none_iff, names_setCalls]

theorem traceLastStatus_of_last
    (pre post : List (String × api.HealthCheckResponse_ServingStatus)) (name : String)
    (v : api.HealthCheckResponse_ServingStatus) (hpost : ∀ a ∈ post, a.1 ≠ name) :
    traceLastStatus (pre ++ (name, v) :: post) name = some v := by
  have hnone : List.find? (fun a => decide (a.1 = name)) post.reverse = none := by
    rw [List.find?_eq_none]
    intro a ha
    simpa using hpost a (List.mem_reverse.mp ha)
  simp [traceLastStatus, List.find?_append, hnone, List.find?_cons]

/-! ## The empty service name -/

/-- C1: every sequence of `SetServingStatus` calls (with any service names, the empty one
included, and any statuses) made on the registry built by `NewHealthServer` runs to completion,
and in the state it reaches `Check` with the empty service name returns the response `SERVING`
and no error. -/
theorem check_empty_after_sets (args : List (String × api.HealthCheckResponse_ServingStatus))
    (ctx : context.Context) :
    ∃ s, run NewHealthServer (setCalls args) = some s ∧
      s.Check ctx { Service := "" } = .returned s
        { resp := some { Status := api.HealthCheckResponse_SERVING }, err := none } := by
  obtain ⟨s, hrun, hmu, _, _⟩ :=
    run_of_ready (setCalls args) NewHealthServer ready_NewHealthServer.1 ready_NewHealthServer.2.1
  refine ⟨s, hrun, ?_⟩
  rw [check_eq_of_free s ctx _ hmu]
  simp [okResult]

/-! ## Reading back what was written -/

/-- C2: on a registry at rest (mutex free, map allocated), for a non-empty service name and any
status value, `SetServingStatus` returns, and `Check` of that name on the resulting state returns
a response carrying exactly that status, and no error. -/
theorem check_after_set (s : Server) (service : String)
    (v : api.HealthCheckResponse_ServingStatus) (ctx : context.Context)
    (hmu : s.mu.locked = false) (hmap : s.statusMap.isNil = false) (hne : service ≠ "") :
    ∃ s1, s.SetServingStatus service v = .returned s1 () ∧
      s1.Check ctx { Service := service } = .returned s1
        { resp := some { Status := v }, err := none } := by
  refine ⟨_, set_eq_of_ready s service v hmu hmap, ?_⟩
  rw [check_eq_of_free _ ctx _ rfl]
  simp [okResult, GoMap.index, hne]

/-- The instance of C2 at the fresh registry, the name `svc-a` and the status value 7, which is
outside the named members of the enumeration. -/
theorem check_after_set_witness :
    NewHealthServer.mu.locked = false ∧ NewHealthServer.statusMap.isNil = false ∧
      "svc-a" ≠ "" ∧
      ∃ s1, NewHealthServer.SetServingStatus "svc-a" 7 = .returned s1 () ∧
        s1.Check context.Context.cancelled { Service := "svc-a" } = .returned s1
          { resp := some { Status := 7 }, err := none } :=
  ⟨rfl, rfl, by decide,
    check_after_set NewHealthServer "svc-a" 7 context.Context.cancelled rfl rfl (by decide)⟩

/-! ## Names that were never set -/

/-- C3: for a non-empty service name and a sequence of `SetServingStatus` calls none of which
names it (the empty sequence included), the sequence made on the registry built by
`NewHealthServer` runs to completion, and in the state it reaches `Check` of that name returns no
response and the not-found error (code `NotFound`, message `unknown service`). -/
theorem check_never_set (args : List (String × api.HealthCheckResponse_ServingStatus))
    (service : String) (ctx : context.Context)
    (hne : service ≠ "") (hnot : ∀ a ∈ args, a.1 ≠ service) :
    ∃ s, run NewHealthServer (setCalls args) = some s ∧
      s.Check ctx { Service := service } = .returned s
        { resp := none,
          err := some { code := codes.NotFound, message := "unknown service" } } := by
  obtain ⟨s, hrun, hmu, _, hidx⟩ :=
    run_of_ready (setCalls args) NewHealthServer ready_NewHealthServer.1 ready_NewHealthServer.2.1
  refine ⟨s, hrun, ?_⟩
  have hlast : lastSet (setCalls args) service = none :=
    (lastSet_eq_none_iff _ _).mpr ((names_setCalls args service).mpr hnot)
  have hs : s.statusMap.index service = none := by
    rw [hidx service, hlast]
    exact ready_NewHealthServer.2.2 service
  rw [check_eq_of_free s ctx _ hmu]
  simp [hne, hs, notFoundResult]

/-- The instance of C3 at the name `svc-a` after calls that set `svc-b` and the empty name. -/
theorem check_never_set_witness :
    "svc-a" ≠ "" ∧
      (∀ a ∈ [("svc-b", api.HealthCheckResponse_SERVING), ("", api.HealthCheckResponse_UNKNOWN)],
        a.1 ≠ "svc-a") ∧
      ∃ s, run NewHealthServer
          (setCalls [("svc-b", api.HealthCheckResponse_SERVING),
            ("", api.HealthCheckResponse_UNKNOWN)]) = some s ∧
        s.Check context.Context.live { Service := "svc-a" } = .returned s
          { resp := none,
            err := some { code := codes.NotFound, message := "unknown service" } } :=
  ⟨by decide, by decide,
    check_never_set [("svc-b", api.HealthCheckResponse_SERVING),
      ("", api.HealthCheckResponse_UNKNOWN)] "svc-a" context.Context.live
      (by decide) (by decide)⟩

/-! ## When `Check` fails -/

/-- C4, the claim as stated fails: after `SetServingStatus` with the empty name and `UNKNOWN` on
the fresh registry, the empty name has the stored status `UNKNOWN`, and `Check` of the empty name
returns a response carrying `SERVING`, which is not `UNKNOWN`. -/
theorem check_empty_stored_unknown :
    ∃ s, NewHealthServer.SetServingStatus "" api.HealthCheckResponse_UNKNOWN = .returned s () ∧
      s.statusMap.index "" = some api.HealthCheckResponse_UNKNOWN ∧
      s.Check context.Context.live { Service := "" } = .returned s
        { resp := some { Status := api.HealthCheckResponse_SERVING }, err := none } ∧
      s.Check context.Context.live { Service := "" } ≠ .returned s
        { resp := some { Status := api.HealthCheckResponse_UNKNOWN }, err := none } := by
  refine ⟨_, set_eq_of_ready NewHealthServer "" _ rfl rfl, ?_, ?_, ?_⟩
  · simp [GoMap.index]
  · rw [check_eq_of_free _ _ _ rfl]
    simp [okResult]
  · rw [check_eq_of_free _ _ _ rfl]
    simp [okResult, api.HealthCheckResponse_SERVING, api.HealthCheckResponse_UNKNOWN]

/-- C4, amended: on a registry whose mutex is free, `Check` returns and leaves the state as it
was; its result carries an error if and only if the name is non-empty and has no entry in the
status map; the error, when there is one, is the not-found error (code `NotFound`, message
`unknown service`) with no response; a non-empty name whose stored status is `UNKNOWN` gets a
response carrying `UNKNOWN` and no error; and the empty name gets `SERVING` whatever is stored. -/
theorem check_fails_iff (s : Server) (name : String) (ctx : context.Context)
    (hmu : s.mu.locked = false) :
    ∃ r, s.Check ctx { Service := name } = .returned s r ∧
      (r.err ≠ none ↔ name ≠ "" ∧ s.statusMap.index name = none) ∧
      (r.err ≠ none →
        r = { resp := none,
              err := some { code := codes.NotFound, message := "unknown service" } }) ∧
      (name ≠ "" → s.statusMap.index name = some api.HealthCheckResponse_UNKNOWN →
        r = { resp := some { Status := api.HealthCheckResponse_UNKNOWN }, err := none }) ∧
      (name = "" →
        r = { resp := some { Status := api.HealthCheckResponse_SERVING }, err := none }) := by
  refine ⟨_, check_eq_of_free s ctx _ hmu, ?_⟩
  by_cases hname : name = ""
  · simp [hname, okResult]
  · cases hidx : s.statusMap.index name with
    | none => simp [hname, hidx, notFoundResult]
    | some st => simp [hname, hidx, okResult]

/-- The instance of the amended C4 at a registry that stores `UNKNOWN` for `svc-a`, queried for
`svc-a`. -/
theorem check_fails_iff_witness :
    (Server.mk ⟨false⟩ (GoMap.alloc (fun key =>
        if key = "svc-a" then some api.HealthCheckResponse_UNKNOWN else none))).mu.locked = false ∧
    ∃ r, (Server.mk ⟨false⟩ (GoMap.alloc (fun key =>
        if key = "svc-a" then some api.HealthCheckResponse_UNKNOWN else none))).Check
          context.Context.live { Service := "svc-a" } =
        .returned (Server.mk ⟨false⟩ (GoMap.alloc (fun key =>
          if key = "svc-a" then some api.HealthCheckResponse_UNKNOWN else none))) r ∧
      (r.err ≠ none ↔ "svc-a" ≠ "" ∧
        (Server.mk ⟨false⟩ (GoMap.alloc (fun key =>
          if key = "svc-a" then some api.HealthCheckResponse_UNKNOWN else none))).statusMap.index
            "svc-a" = none) ∧
      (r.err ≠ none →
        r = { resp := none,
              err := some { code := codes.NotFound, message := "unknown service" } }) ∧
      ("svc-a" ≠ "" →
        (Server.mk ⟨false⟩ (GoMap.alloc (fun key =>
          if key = "svc-a" then some api.HealthCheckResponse_UNKNOWN else none))).statusMap.index
            "svc-a" = some api.HealthCheckResponse_UNKNOWN →
        r = { resp := some { Status := api.HealthCheckResponse_UNKNOWN }, err := none }) ∧
      ("svc-a" = "" →
        r = { resp := some { Status := api.HealthCheckResponse_SERVING }, err := none }) :=
  ⟨rfl, check_fails_iff _ "svc-a" context.Context.live rfl⟩

/-! ## Overwriting -/

/-- C5: on a registry at rest (mutex free, map allocated), for a non-empty service name and
statuses `a` and `b`, `SetServingStatus` with `a` and then with `b` both return, `Check` of the
name then returns a response carrying `b`, and the resulting status map equals the status map
that `SetServingStatus` with `b` alone produces. -/
theorem set_twice_last_wins (s : Server) (service : String)
    (a b : api.HealthCheckResponse_ServingStatus) (ctx : context.Context)
    (hmu : s.mu.locked = false) (hmap : s.statusMap.isNil = false) (hne : service ≠ "") :
    ∃ s1 s2 s3, s.SetServingStatus service a = .returned s1 () ∧
      s1.SetServingStatus service b = .returned s2 () ∧
      s2.Check ctx { Service := service } = .returned s2
        { resp := some { Status := b }, err := none } ∧
      s.SetServingStatus service b = .returned s3 () ∧
      s2.statusMap = s3.statusMap := by
  refine ⟨_, _, _, set_eq_of_ready s service a hmu hmap, set_eq_of_ready _ service b rfl rfl, ?_,
    set_eq_of_ready s service b hmu hmap, ?_⟩
  · rw [check_eq_of_free _ ctx _ rfl]
    simp [okResult, GoMap.index, hne]
  · simp only [GoMap.index, GoMap.alloc.injEq]
    funext key
    by_cases hk : key = service <;> simp [hk]

/-- The instance of C5 at the fresh registry, the name `svc-a` and the statuses `SERVING` then
`NOT_SERVING`. -/
theorem set_twice_last_wins_witness :
    NewHealthServer.mu.locked = false ∧ NewHealthServer.statusMap.isNil = false ∧
      "svc-a" ≠ "" ∧
      ∃ s1 s2 s3,
        NewHealthServer.SetServingStatus "svc-a" api.HealthCheckResponse_SERVING
          = .returned s1 () ∧
        s1.SetServingStatus "svc-a" api.HealthCheckResponse_NOT_SERVING = .returned s2 () ∧
        s2.Check context.Context.live { Service := "svc-a" } = .returned s2
          { resp := some { Status := api.HealthCheckResponse_NOT_SERVING }, err := none } ∧
        NewHealthServer.SetServingStatus "svc-a" api.HealthCheckResponse_NOT_SERVING
          = .returned s3 () ∧
        s2.statusMap = s3.statusMap :=
  ⟨rfl, rfl, by decide,
    set_twice_last_wins NewHealthServer "svc-a" api.HealthCheckResponse_SERVING
      api.HealthCheckResponse_NOT_SERVING context.Context.live rfl rfl (by decide)⟩

/-- C6: on a registry at rest (mutex free, map allocated), for any service name and status,
`SetServingStatus` called twice in a row returns both times and yields the same status map as
the first call alone; and when the name is non-empty, `Check` of it then returns a response
carrying that status. -/
theorem set_idempotent (s : Server) (service : String)
    (v : api.HealthCheckResponse_ServingStatus) (ctx : context.Context)
    (hmu : s.mu.locked = false) (hmap : s.statusMap.isNil = false) :
    ∃ s1 s2, s.SetServingStatus service v = .returned s1 () ∧
      s1.SetServingStatus service v = .returned s2 () ∧
      s2.statusMap = s1.statusMap ∧
      (service ≠ "" →
        s2.Check ctx { Service := service } = .returned s2
          { resp := some { Status := v }, err := none }) := by
  refine ⟨_, _, set_eq_of_ready s service v hmu hmap, set_eq_of_ready _ service v rfl rfl, ?_, ?_⟩
  · simp only [GoMap.index, GoMap.alloc.injEq]
    funext key
    by_cases hk : key = service <;> simp [hk]
  · intro hne
    rw [check_eq_of_free _ ctx _ rfl]
    simp [okResult, GoMap.index, hne]

/-- The instance of C6 at the fresh registry, the name `svc-a` and the status `NOT_SERVING`. -/
theorem set_idempotent_witness :
    NewHealthServer.mu.locked = false ∧ NewHealthServer.statusMap.isNil = false ∧
      ∃ s1 s2,
        NewHealthServer.SetServingStatus "svc-a" api.HealthCheckResponse_NOT_SERVING
          = .returned s1 () ∧
        s1.SetServingStatus "svc-a" api.HealthCheckResponse_NOT_SERVING = .returned s2 () ∧
        s2.statusMap = s1.statusMap ∧
        ("svc-a" ≠ "" →
          s2.Check context.Context.live { Service := "svc-a" } = .returned s2
            { resp := some { Status := api.HealthCheckResponse_NOT_SERVING }, err := none }) :=
  ⟨rfl, rfl,
    set_idempotent NewHealthServer "svc-a" api.HealthCheckResponse_NOT_SERVING
      context.Context.live rfl rfl⟩

/-! ## The empty-string key -/

/-- C7, the claim as stated fails: one `SetServingStatus` call with the empty name on the fresh
registry returns, and the status map it leaves has an entry for the empty-string key. -/
theorem empty_key_stored :
    ∃ s, run NewHealthServer [Call.setServingStatus "" api.HealthCheckResponse_SERVING] = some s ∧
      s.statusMap.index "" = some api.HealthCheckResponse_SERVING := by
  refine ⟨{ mu := ⟨false⟩,
            statusMap := .alloc (fun key =>
              if key = "" then some api.HealthCheckResponse_SERVING
              else NewHealthServer.statusMap.index key) }, ?_, ?_⟩
  · simp only [run, Call.exec, set_eq_of_ready NewHealthServer "" _ rfl rfl]
  · simp [GoMap.index]

/-- C7, amended: every sequence of `Check` and `SetServingStatus` calls made on the registry
built by `NewHealthServer` runs to completion, and the status map it leaves has an entry for the
empty-string key exactly when one of its `SetServingStatus` calls named the empty string. -/
theorem empty_key_iff_named (calls : List Call) :
    ∃ s, run NewHealthServer calls = some s ∧
      (s.statusMap.hasKey "" = true ↔ ∃ c ∈ calls, c.names "" = true) := by
  obtain ⟨s, hrun, _, _, hidx⟩ :=
    run_of_ready calls NewHealthServer ready_NewHealthServer.1 ready_NewHealthServer.2.1
  refine ⟨s, hrun, ?_⟩
  have hnone := lastSet_eq_none_iff calls ""
  simp only [GoMap.hasKey, hidx "", ready_NewHealthServer.2.2 ""]
  cases hl : lastSet calls "" with
  | none =>
    have hall := hnone.mp hl
    simp only [Option.isSome_none, Bool.false_eq_true, false_iff, not_exists, not_and]
    intro c hc
    simp [hall c hc]
  | some v =>
    simp only [Option.isSome_some, true_iff]
    by_contra hno
    have hall : ∀ c ∈ calls, c.names "" = false := by
      intro c hc
      cases hn : c.names "" with
      | false => rfl
      | true => exact absurd ⟨c, hc, hn⟩ hno
    rw [hnone.mpr hall] at hl
    cases hl

/-! ## `Check` is read-only -/

/-- C8: on a registry whose mutex is free, `Check` of any request (empty name, known name or
unknown name) returns, and the state after the call, the status map included, is the state
before it. -/
theorem check_read_only (s : Server) (ctx : context.Context) (in_ : api.HealthCheckRequest)
    (hmu : s.mu.locked = false) :
    ∃ s1 r, s.Check ctx in_ = .returned s1 r ∧ s1.statusMap = s.statusMap ∧ s1 = s :=
  ⟨s, _, check_eq_of_free s ctx in_ hmu, rfl, rfl⟩

/-- The instance of C8 at the fresh registry and the unknown name `svc-a` (the error path). -/
theorem check_read_only_witness :
    NewHealthServer.mu.locked = false ∧
      ∃ s1 r, NewHealthServer.Check context.Context.expired { Service := "svc-a" }
          = .returned s1 r ∧
        s1.statusMap = NewHealthServer.statusMap ∧ s1 = NewHealthServer :=
  ⟨rfl, check_read_only NewHealthServer context.Context.expired { Service := "svc-a" } rfl⟩

/-! ## Entries persist -/

/-- C9: when `Check` of a non-empty name succeeds on a registry (so the name has an entry), every
further sequence of `Check` and `SetServingStatus` calls runs to completion, `Check` of that
name succeeds in the state it reaches, and every key of the status map before the sequence is a
key of the status map after it. -/
theorem entries_persist (s s0 : Server) (service : String) (ctx ctx1 : context.Context)
    (resp : api.HealthCheckResponse) (calls : List Call)
    (hne : service ≠ "")
    (hok : s.Check ctx { Service := service } = .returned s0 { resp := some resp, err := none }) :
    ∃ s1, run s calls = some s1 ∧
      (∃ resp1, s1.Check ctx1 { Service := service } = .returned s1
        { resp := some resp1, err := none }) ∧
      ∀ k, s.statusMap.hasKey k = true → s1.statusMap.hasKey k = true := by
  have hmu : s.mu.locked = false := free_of_check_returned s s0 ctx _ _ hok
  have hsome : ∃ st, s.statusMap.index service = some st := by
    rw [check_eq_of_free s ctx _ hmu] at hok
    cases hidx : s.statusMap.index service with
    | none => simp [hne, hidx, notFoundResult] at hok
    | some st => exact ⟨st, rfl⟩
  have hmap : s.statusMap.isNil = false := by
    obtain ⟨st, hst⟩ := hsome
    cases hm : s.statusMap with
    | nil => simp [hm, GoMap.index] at hst
    | alloc entries => rfl
  obtain ⟨s1, hrun, hmu1, _, hidx⟩ := run_of_ready calls s hmu hmap
  have hkeys : ∀ k, s.statusMap.hasKey k = true → s1.statusMap.hasKey k = true := by
    intro k hk
    simp only [GoMap.hasKey, hidx k] at hk ⊢
    cases lastSet calls k with
    | none => simpa using hk
    | some v => simp
  refine ⟨s1, hrun, ?_, hkeys⟩
  have hk1 : s1.statusMap.hasKey service = true := by
    apply hkeys
    obtain ⟨st, hst⟩ := hsome
    simp [GoMap.hasKey, hst]
  rw [check_eq_of_free s1 ctx1 _ hmu1]
  cases hidx1 : s1.statusMap.index service with
  | none => simp [GoMap.hasKey, hidx1] at hk1
  | some st => exact ⟨{ Status := st }, by simp [hne, okResult]⟩

/-- The instance of C9 at a registry that stores `NOT_SERVING` for `svc-a`, followed by a
`Check` of `svc-b`, a `SetServingStatus` of `svc-b` and a `SetServingStatus` of `svc-a`. -/
theorem entries_persist_witness :
    "svc-a" ≠ "" ∧
    (Server.mk ⟨false⟩ (GoMap.alloc (fun key =>
        if key = "svc-a" then some api.HealthCheckResponse_NOT_SERVING else none))).Check
          context.Context.live { Service := "svc-a" }
      = .returned (Server.mk ⟨false⟩ (GoMap.alloc (fun key =>
          if key = "svc-a" then some api.HealthCheckResponse_NOT_SERVING else none)))
          { resp := some { Status := api.HealthCheckResponse_NOT_SERVING }, err := none } ∧
    ∃ s1, run (Server.mk ⟨false⟩ (GoMap.alloc (fun key =>
          if key = "svc-a" then some api.HealthCheckResponse_NOT_SERVING else none)))
        [Call.check context.Context.live { Service := "svc-b" },
         Call.setServingStatus "svc-b" api.HealthCheckResponse_SERVING,
         Call.setServingStatus "svc-a" api.HealthCheckResponse_UNKNOWN] = some s1 ∧
      (∃ resp1, s1.Check context.Context.cancelled { Service := "svc-a" } = .returned s1
        { resp := some resp1, err := none }) ∧
      ∀ k, (Server.mk ⟨false⟩ (GoMap.alloc (fun key =>
          if key = "svc-a" then some api.HealthCheckResponse_NOT_SERVING
          else none))).statusMap.hasKey k = true → s1.statusMap.hasKey k = true :=
  have hok : (Server.mk ⟨false⟩ (GoMap.alloc (fun key =>
        if key = "svc-a" then some api.HealthCheckResponse_NOT_SERVING else none))).Check
          context.Context.live { Service := "svc-a" }
      = .returned (Server.mk ⟨false⟩ (GoMap.alloc (fun key =>
          if key = "svc-a" then some api.HealthCheckResponse_NOT_SERVING else none)))
          { resp := some { Status := api.HealthCheckResponse_NOT_SERVING }, err := none } := by
    simp [Server.Check, sync.Mutex.Lock, sync.Mutex.Unlock, GoMap.index]
  ⟨by decide, hok,
    entries_persist _ _ "svc-a" context.Context.live context.Context.cancelled _ _
      (by decide) hok⟩

/-! ## `SetServingStatus` cannot fail -/

/-- C10: every sequence of `Check` and `SetServingStatus` calls made on the registry built by
`NewHealthServer` runs to completion and leaves the mutex free and the map allocated; and in the
state it reaches, `SetServingStatus` with any service name and any status returns (it neither
panics nor blocks) and the status map then holds that status at that name. -/
theorem set_never_fails (calls : List Call) (service : String)
    (v : api.HealthCheckResponse_ServingStatus) :
    ∃ s, run NewHealthServer calls = some s ∧
      s.mu.locked = false ∧ s.statusMap.isNil = false ∧
      ∃ s1, s.SetServingStatus service v = .returned s1 () ∧
        s1.statusMap.index service = some v := by
  obtain ⟨s, hrun, hmu, hmap, _⟩ :=
    run_of_ready calls NewHealthServer ready_NewHealthServer.1 ready_NewHealthServer.2.1
  refine ⟨s, hrun, hmu, hmap, _, set_eq_of_ready s service v hmu hmap, ?_⟩
  simp [GoMap.index]

/-! ## The scenario of the specification -/

/-- C11: on the registry built by `NewHealthServer`, `Check` of `svc-a` returns the not-found
error; `SetServingStatus` of `svc-a` with `SERVING` returns and `Check` of `svc-a` then returns
`SERVING`; `SetServingStatus` of `svc-a` with `NOT_SERVING` returns and `Check` of `svc-a` then
returns `NOT_SERVING`; and `Check` of the empty name returns `SERVING` in each of the three
states. -/
theorem scenario_svc_a (ctx : context.Context) :
    ∃ s1 s2,
      NewHealthServer.Check ctx { Service := "svc-a" } = .returned NewHealthServer
        { resp := none,
          err := some { code := codes.NotFound, message := "unknown service" } } ∧
      NewHealthServer.Check ctx { Service := "" } = .returned NewHealthServer
        { resp := some { Status := api.HealthCheckResponse_SERVING }, err := none } ∧
      NewHealthServer.SetServingStatus "svc-a" api.HealthCheckResponse_SERVING
        = .returned s1 () ∧
      s1.Check ctx { Service := "svc-a" } = .returned s1
        { resp := some { Status := api.HealthCheckResponse_SERVING }, err := none } ∧
      s1.Check ctx { Service := "" } = .returned s1
        { resp := some { Status := api.HealthCheckResponse_SERVING }, err := none } ∧
      s1.SetServingStatus "svc-a" api.HealthCheckResponse_NOT_SERVING = .returned s2 () ∧
      s2.Check ctx { Service := "svc-a" } = .returned s2
        { resp := some { Status := api.HealthCheckResponse_NOT_SERVING }, err := none } ∧
      s2.Check ctx { Service := "" } = .returned s2
        { resp := some { Status := api.HealthCheckResponse_SERVING }, err := none } := by
  have hne : ¬ ("svc-a" = "") := by decide
  refine ⟨_, _, ?_, ?_, set_eq_of_ready NewHealthServer "svc-a" _ rfl rfl, ?_, ?_,
    set_eq_of_ready _ "svc-a" _ rfl rfl, ?_, ?_⟩
  · rw [check_eq_of_free _ ctx _ rfl]
    simp [hne, notFoundResult, NewHealthServer, GoMap.make, GoMap.index]
  · rw [check_eq_of_free _ ctx _ rfl]
    simp [okResult]
  · rw [check_eq_of_free _ ctx _ rfl]
    simp [hne, okResult, GoMap.index]
  · rw [check_eq_of_free _ ctx _ rfl]
    simp [okResult]
  · rw [check_eq_of_free _ ctx _ rfl]
    simp [hne, okResult, GoMap.index]
  · rw [check_eq_of_free _ ctx _ rfl]
    simp [okResult]

/-! ## The mutex is released -/

/-- C13: with the mutex as a held-or-free field of the state, when a call is entered with the
mutex free: `Check` returns, on each of its three paths (empty name, known name, not-found
error), with the mutex free; every return of `SetServingStatus` leaves the mutex free; and on an
allocated map `SetServingStatus` does return. -/
theorem mutex_released (s : Server) (hmu : s.mu.locked = false) :
    (∀ ctx in_, ∃ s1 r, s.Check ctx in_ = .returned s1 r ∧ s1.mu.locked = false) ∧
    (∀ service v s1, s.SetServingStatus service v = .returned s1 () → s1.mu.locked = false) ∧
    (s.statusMap.isNil = false →
      ∀ service v, ∃ s1, s.SetServingStatus service v = .returned s1 () ∧
        s1.mu.locked = false) := by
  refine ⟨?_, ?_, ?_⟩
  · intro ctx in_
    exact ⟨s, _, check_eq_of_free s ctx in_ hmu, hmu⟩
  · intro service v s1 h
    obtain ⟨⟨l⟩, m⟩ := s
    simp only at hmu
    subst hmu
    cases m with
    | nil => simp [Server.SetServingStatus, sync.Mutex.Lock, GoMap.assign] at h
    | alloc entries =>
      simp only [Server.SetServingStatus, sync.Mutex.Lock, sync.Mutex.Unlock, GoMap.assign,
        Bool.false_eq_true, if_false, if_true, Exec.returned.injEq, and_true] at h
      rw [← h]
  · intro hmap service v
    exact ⟨_, set_eq_of_ready s service v hmu hmap, rfl⟩

/-- The instance of C13 at the fresh registry. -/
theorem mutex_released_witness :
    NewHealthServer.mu.locked = false ∧
    (∀ ctx in_, ∃ s1 r, NewHealthServer.Check ctx in_ = .returned s1 r ∧
      s1.mu.locked = false) ∧
    (∀ service v s1, NewHealthServer.SetServingStatus service v = .returned s1 () →
      s1.mu.locked = false) ∧
    (NewHealthServer.statusMap.isNil = false →
      ∀ service v, ∃ s1, NewHealthServer.SetServingStatus service v = .returned s1 () ∧
        s1.mu.locked = false) :=
  ⟨rfl, mutex_released NewHealthServer rfl⟩

/-! ## The context argument -/

/-- C14: `Check` gives the same outcome (response, error and state) under any two contexts, for
every state and request; and there is one function of the status map and the service name that
gives the result of every `Check` entered with the mutex free. -/
theorem check_ignores_context :
    (∀ (s : Server) (in_ : api.HealthCheckRequest) (ctx1 ctx2 : context.Context),
      s.Check ctx1 in_ = s.Check ctx2 in_) ∧
    ∃ f : GoMap → String → CheckResult,
      ∀ (s : Server) (ctx : context.Context) (in_ : api.HealthCheckRequest),
        s.mu.locked = false → s.Check ctx in_ = .returned s (f s.statusMap in_.Service) := by
  refine ⟨fun s in_ ctx1 ctx2 => rfl, ?_⟩
  refine ⟨fun m name =>
    if name = "" then okResult api.HealthCheckResponse_SERVING
    else match m.index name with
      | some st => okResult st
      | none => notFoundResult, ?_⟩
  intro s ctx in_ hmu
  exact check_eq_of_free s ctx in_ hmu

/-- The instance of C14 at the fresh registry and the name `svc-a`, with a cancelled and a live
context. -/
theorem check_ignores_context_witness :
    NewHealthServer.Check context.Context.cancelled { Service := "svc-a" }
      = NewHealthServer.Check context.Context.live { Service := "svc-a" } :=
  check_ignores_context.1 NewHealthServer { Service := "svc-a" }
    context.Context.cancelled context.Context.live

/-! ## `SetServingStatus` changes one entry -/

/-- C15: on a registry at rest (mutex free, map allocated), for service names `service` and `t`
with `t` different from `service` and any status, `SetServingStatus` of `service` returns, the
result of `Check` of `t` (a response or the not-found error) is the same before and after it,
and every entry of the status map at a key other than `service` is unchanged. -/
theorem set_frame (s : Server) (service t : String)
    (v : api.HealthCheckResponse_ServingStatus) (ctx : context.Context)
    (hmu : s.mu.locked = false) (hmap : s.statusMap.isNil = false) (hts : t ≠ service) :
    ∃ s1 r, s.SetServingStatus service v = .returned s1 () ∧
      s.Check ctx { Service := t } = .returned s r ∧
      s1.Check ctx { Service := t } = .returned s1 r ∧
      ∀ k, k ≠ service → s1.statusMap.index k = s.statusMap.index k := by
  refine ⟨_, _, set_eq_of_ready s service v hmu hmap, check_eq_of_free s ctx _ hmu, ?_, ?_⟩
  · rw [check_eq_of_free _ ctx _ rfl]
    simp [GoMap.index, hts]
  · intro k hk
    simp [GoMap.index, hk]

/-- The instance of C15 at a registry that stores `NOT_SERVING` for `svc-b`, with
`SetServingStatus` of `svc-a` and `Check` of `svc-b`. -/
theorem set_frame_witness :
    (Server.mk ⟨false⟩ (GoMap.alloc (fun key =>
        if key = "svc-b" then some api.HealthCheckResponse_NOT_SERVING else none))).mu.locked
      = false ∧
    (Server.mk ⟨false⟩ (GoMap.alloc (fun key =>
        if key = "svc-b" then some api.HealthCheckResponse_NOT_SERVING
        else none))).statusMap.isNil = false ∧
    "svc-b" ≠ "svc-a" ∧
    ∃ s1 r, (Server.mk ⟨false⟩ (GoMap.alloc (fun key =>
          if key = "svc-b" then some api.HealthCheckResponse_NOT_SERVING
          else none))).SetServingStatus "svc-a" api.HealthCheckResponse_SERVING
        = .returned s1 () ∧
      (Server.mk ⟨false⟩ (GoMap.alloc (fun key =>
          if key = "svc-b" then some api.HealthCheckResponse_NOT_SERVING else none))).Check
          context.Context.live { Service := "svc-b" }
        = .returned (Server.mk ⟨false⟩ (GoMap.alloc (fun key =>
          if key = "svc-b" then some api.HealthCheckResponse_NOT_SERVING else none))) r ∧
      s1.Check context.Context.live { Service := "svc-b" } = .returned s1 r ∧
      ∀ k, k ≠ "svc-a" → s1.statusMap.index k =
        (Server.mk ⟨false⟩ (GoMap.alloc (fun key =>
          if key = "svc-b" then some api.HealthCheckResponse_NOT_SERVING
          else none))).statusMap.index k :=
  ⟨rfl, rfl, by decide,
    set_frame _ "svc-a" "svc-b" api.HealthCheckResponse_SERVING context.Context.live
      rfl rfl (by decide)⟩

/-! ## Refinement of the trace model -/

/-- C16: for a non-empty service name, every sequence of `SetServingStatus` calls made on the
registry built by `NewHealthServer` runs to completion, and `Check` of the name in the state it
reaches returns what the trace model answers: a response carrying the status of the last call
of the sequence that names it, and the not-found error exactly when no call of the sequence
names it. -/
theorem check_refines_trace (args : List (String × api.HealthCheckResponse_ServingStatus))
    (name : String) (ctx : context.Context) (hne : name ≠ "") :
    ∃ s r, run NewHealthServer (setCalls args) = some s ∧
      s.Check ctx { Service := name } = .returned s r ∧
      r = traceCheck args name ∧
      (∀ pre v post, args = pre ++ (name, v) :: post → (∀ a ∈ post, a.1 ≠ name) →
        r = { resp := some { Status := v }, err := none }) ∧
      (r = { resp := none,
             err := some { code := codes.NotFound, message := "unknown service" } }
        ↔ ∀ a ∈ args, a.1 ≠ name) ∧
      (r.err ≠ none ↔ ∀ a ∈ args, a.1 ≠ name) := by
  obtain ⟨s, hrun, hmu, _, hidx⟩ :=
    run_of_ready (setCalls args) NewHealthServer ready_NewHealthServer.1 ready_NewHealthServer.2.1
  have hs : s.statusMap.index name = traceLastStatus args name := by
    rw [hidx name, lastSet_setCalls, ready_NewHealthServer.2.2 name]
    cases traceLastStatus args name <;> rfl
  have hcheck : s.Check ctx { Service := name } = .returned s (traceCheck args name) := by
    rw [check_eq_of_free s ctx _ hmu]
    simp only [hne, if_false, hs, traceCheck]
    cases traceLastStatus args name <;> simp [okResult, notFoundResult]
  refine ⟨s, _, hrun, hcheck, rfl, ?_, ?_, ?_⟩
  · intro pre v post hargs hpost
    subst hargs
    simp [traceCheck, hne, traceLastStatus_of_last pre post name v hpost]
  · rw [← traceLastStatus_eq_none_iff]
    cases hl : traceLastStatus args name <;> simp [traceCheck, hne, hl]
  · rw [← traceLastStatus_eq_none_iff]
    cases hl : traceLastStatus args name <;> simp [traceCheck, hne, hl]

/-- The instance of C16 at the name `svc-a` and a sequence that sets `svc-a`, `svc-b`, `svc-a`
again and the empty name. -/
theorem check_refines_trace_witness :
    "svc-a" ≠ "" ∧
    ∃ s r, run NewHealthServer (setCalls
          [("svc-a", api.HealthCheckResponse_SERVING), ("svc-b", api.HealthCheckResponse_UNKNOWN),
           ("svc-a", api.HealthCheckResponse_NOT_SERVING), ("", 7)]) = some s ∧
      s.Check context.Context.live { Service := "svc-a" } = .returned s r ∧
      r = traceCheck
          [("svc-a", api.HealthCheckResponse_SERVING), ("svc-b", api.HealthCheckResponse_UNKNOWN),
           ("svc-a", api.HealthCheckResponse_NOT_SERVING), ("", 7)] "svc-a" ∧
      (∀ pre v post,
        [("svc-a", api.HealthCheckResponse_SERVING), ("svc-b", api.HealthCheckResponse_UNKNOWN),
         ("svc-a", api.HealthCheckResponse_NOT_SERVING), ("", 7)] = pre ++ ("svc-a", v) :: post →
        (∀ a ∈ post, a.1 ≠ "svc-a") →
        r = { resp := some { Status := v }, err := none }) ∧
      (r = { resp := none,
             err := some { code := codes.NotFound, message := "unknown service" } }
        ↔ ∀ a ∈ [("svc-a", api.HealthCheckResponse_SERVING),
            ("svc-b", api.HealthCheckResponse_UNKNOWN),
            ("svc-a", api.HealthCheckResponse_NOT_SERVING), ("", 7)], a.1 ≠ "svc-a") ∧
      (r.err ≠ none
        ↔ ∀ a ∈ [("svc-a", api.HealthCheckResponse_SERVING),
            ("svc-b", api.HealthCheckResponse_UNKNOWN),
            ("svc-a", api.HealthCheckResponse_NOT_SERVING), ("", 7)], a.1 ≠ "svc-a") :=
  ⟨by decide,
    check_refines_trace
      [("svc-a", api.HealthCheckResponse_SERVING), ("svc-b", api.HealthCheckResponse_UNKNOWN),
       ("svc-a", api.HealthCheckResponse_NOT_SERVING), ("", 7)]
      "svc-a" context.Context.live (by decide)⟩

end health
